import Mathlib

/-!
# Verification development for the `phonebook` backend

Shallow embedding of the Go backend (`main.go` and its companion file:
database setup, verification handlers, auth middleware) into Lean 4,
together with theorems settling the spec claims.

Conventions of the embedding:
* The remote ArangoDB store is modelled as explicit state passed through
  each operation; collections are association lists keyed by document key.
* Machine time (`time.Time`) is modelled as a `Nat` number of seconds;
  `time.Now().After(t)` is strict `t < now`.
* Store operations that can fail return `Except DbErr`; a failing
  operation leaves the state unchanged (the remote call had no effect).
  To express §7-style store failures, the verification store carries a
  fault-injection set `failDelete` of keys on which `DeleteDocument`
  reports a failure.
* External collaborators (the `phonenumbers` library, JWT parsing) are
  parameters of the embedding, instantiated concretely in witnesses.
-/

/-- Errors surfaced by the store (ArangoDB driver): a missing document is
reported as not-found (`shared.IsNotFound`); any other failure is a
generic store failure. -/
inductive DbErr where
  | notFound
  | storeFailure
deriving DecidableEq, Repr

/-! ## Verification ledger (companion file, `VerificationAttempt` and `VerifyCode`) -/

/-- `VerificationAttempt` struct: number, 6-digit code, creation time
(seconds). The document key is kept beside the attempt in the store. -/
structure VerificationAttempt where
  number : String
  code : String
  createdAt : Nat
deriving DecidableEq, Repr

/-- The `verification_attempts` collection: documents keyed by `String`
keys, plus a fault-injection set of keys whose deletion fails at the
store (modelling §7 store failures on `DeleteDocument`). -/
structure VStore where
  docs : List (String × VerificationAttempt)
  failDelete : List String
deriving DecidableEq, Repr

/-- `ReadDocument` on `verification_attempts`: a missing key is a
not-found error. -/
def readAttempt (s : VStore) (k : String) : Except DbErr VerificationAttempt :=
  match s.docs.find? (fun p => p.1 == k) with
  | some p => .ok p.2
  | none => .error .notFound

/-- `DeleteDocument` on `verification_attempts`: fails with a store
failure on fault-injected keys (state unchanged), not-found on a missing
key, otherwise removes the document. -/
def deleteAttempt (s : VStore) (k : String) : Except DbErr VStore :=
  if k ∈ s.failDelete then .error .storeFailure
  else if (s.docs.find? (fun p => p.1 == k)).isSome then
    .ok { s with docs := s.docs.filter (fun p => p.1 != k) }
  else .error .notFound

/-- `const VerificationExpiryTime = time.Minute * 5`, in seconds. -/
def VerificationExpiryTime : Nat := 5 * 60

/-- `VerifyCode`: if `now` is strictly after `createdAt + 5min`, delete
the attempt and return `false`; if the codes match, delete and return
`true`; otherwise leave the attempt and return `false`. The Go source
discards `DeleteDocument`'s error (`db.verification_attempts.DeleteDocument(ctx, attempt.Key)`
with both returns dropped), so a failed deletion leaves the state
unchanged and the returned flag is computed regardless. -/
def VerifyCode (now : Nat) (s : VStore) (key : String) (attempt : VerificationAttempt)
    (code : String) : Bool × VStore :=
  if attempt.createdAt + VerificationExpiryTime < now then
    (false, match deleteAttempt s key with | .ok t => t | .error _ => s)
  else if attempt.code = code then
    (true, match deleteAttempt s key with | .ok t => t | .error _ => s)
  else
    (false, s)

/-- The `verify(attemptKey, suppliedCode)` ledger operation (§4.2): the
composite performed by `VerifyRequestHandler` — load the attempt from
the store (its error propagates; a missing attempt is `notFound`), then
run `VerifyCode` on it. -/
def verify (now : Nat) (s : VStore) (key code : String) : Except DbErr (Bool × VStore) :=
  match readAttempt s key with
  | .error e => .error e
  | .ok a => .ok (VerifyCode now s key a code)

/-- `VerifyRequestHandler`'s response, after body parsing: any store read
error becomes a 500; `accepted=false` becomes a 400; on `accepted=true`
the handler proceeds to resolve the user and issue a token (success). -/
inductive VerifyResponse where
  | success
  | invalidOrExpired
  | serverError
deriving DecidableEq, Repr

/-- `VerifyRequestHandler` (companion file, lines 313–348): reads the
attempt (any error → 500 generic message), runs `VerifyCode`, maps
`false` to 400 and `true` to the success path. -/
def VerifyRequestHandler (now : Nat) (s : VStore) (key code : String) :
    VerifyResponse × VStore :=
  match readAttempt s key with
  | .error _ => (.serverError, s)
  | .ok a =>
    let r := VerifyCode now s key a code
    if r.1 then (.success, r.2) else (.invalidOrExpired, r.2)

/-! ## Graph store (`users` and `contacts` collections) -/

/-- `ContactEdge` struct: `_from`/`_to` are full document references
(`"users/" ++ key`), `name` the display name. -/
structure ContactEdge where
  _from : String
  _to : String
  name : String
deriving DecidableEq, Repr

/-- The graph side of the database: the `users` collection (key ↦ phone
number, per the `User` struct) and the `contacts` edge collection
(key ↦ edge), with counters generating fresh document keys. These
operations are modelled as non-failing: the claims about them concern
behaviour while the store functions. -/
structure GraphStore where
  users : List (String × String)
  contacts : List (String × ContactEdge)
  nextUserKey : Nat
  nextEdgeKey : Nat
deriving DecidableEq, Repr

/-- The fresh key `CreateDocument` assigns in the `users` collection. -/
def freshUserKey (s : GraphStore) : String := "u" ++ toString s.nextUserKey

/-- The fresh key `CreateDocument` assigns in the `contacts` collection. -/
def freshEdgeKey (s : GraphStore) : String := "e" ++ toString s.nextEdgeKey

/-- `CreateUser`: insert a `User{Number: number}` document, returning its
key. -/
def CreateUser (s : GraphStore) (number : String) : String × GraphStore :=
  (freshUserKey s,
   { s with users := s.users ++ [(freshUserKey s, number)],
            nextUserKey := s.nextUserKey + 1 })

/-- `GetOrCreateUser` (companion file, lines 191–222): AQL
`FOR u IN users FILTER u.number == @number LIMIT 1 RETURN u` — the first
document whose number matches; if none, `CreateUser`. -/
def GetOrCreateUser (s : GraphStore) (number : String) : String × GraphStore :=
  match s.users.find? (fun p => p.2 == number) with
  | some p => (p.1, s)
  | none => CreateUser s number

/-- Dereference a user key: the number of the first `users` document with
that key. -/
def readUserNumber (s : GraphStore) (k : String) : Option String :=
  (s.users.find? (fun p => p.1 == k)).map (fun p => p.2)

/-- `Contact` item of an `AddContactsRequest`. -/
structure Contact where
  country_code : String
  number : String
  name : String
deriving DecidableEq, Repr

/-- The external `phonenumbers` library (spec §1: out-of-scope
collaborator), over an abstract type `α` of parsed numbers:
`Parse` (number, region), `IsValidNumberForRegion`, E.164 `Format`. -/
structure PhoneLib (α : Type) where
  parse : String → String → Option α
  isValidNumberForRegion : α → String → Bool
  formatE164 : α → String

/-- `strings.ToUpper`, modelled character-wise (faithful on the ASCII
region codes the handler receives). -/
def toUpperStr (s : String) : String := ⟨s.data.map Char.toUpper⟩

/-- Result of `AddContactsHandler`'s loop: generic acknowledgment, or the
400 `"Invalid phone number"` response on a parse failure. -/
inductive AddResult where
  | ok
  | badRequest
deriving DecidableEq, Repr

/-- Lines 68–112 of `main.go`, one item: AQL
`FOR c IN contacts FILTER c._from == @from AND c._to == @to LIMIT 1 RETURN c`;
if an edge is found and its name differs, `UpdateDocument` it in place
(by its key); if found with equal name, no-op; otherwise
`CreateDocument` a new edge. -/
def upsertEdge (s : GraphStore) (userKey contactUserKey name : String) : GraphStore :=
  match s.contacts.find? (fun p =>
      p.2._from == "users/" ++ userKey && p.2._to == "users/" ++ contactUserKey) with
  | some p =>
    if p.2.name ≠ name then
      { s with contacts := s.contacts.map (fun q =>
          if q.1 == p.1 then (q.1, { q.2 with name := name }) else q) }
    else s
  | none =>
    { s with
      contacts := s.contacts ++
          [(freshEdgeKey s, ⟨"users/" ++ userKey, "users/" ++ contactUserKey, name⟩)],
      nextEdgeKey := s.nextEdgeKey + 1 }

/-- `AddContactsHandler` (main.go, lines 46–115), the loop over the parsed
request body: uppercase the country code, parse the number (failure
returns the 400 immediately, keeping earlier items' effects), skip
region-invalid numbers, otherwise resolve the contact's user and upsert
the edge. -/
def AddContactsHandler {α : Type} (lib : PhoneLib α) (userKey : String) :
    List Contact → GraphStore → AddResult × GraphStore
  | [], s => (.ok, s)
  | c :: rest, s =>
    let countryCode := toUpperStr c.country_code
    match lib.parse c.number countryCode with
    | none => (.badRequest, s)
    | some number =>
      if lib.isValidNumberForRegion number countryCode then
        let r := GetOrCreateUser s (lib.formatE164 number)
        AddContactsHandler lib userKey rest (upsertEdge r.2 userKey r.1 c.name)
      else
        AddContactsHandler lib userKey rest s

/-- Body of `GET /api/contacts`. -/
structure GetContactsRequest where
  user_key : String
deriving DecidableEq, Repr

/-- One row of the `GET /api/contacts` response. -/
structure GetContactsResult where
  name : String
  user_key : String
deriving DecidableEq, Repr

/-- The GraphReader operation of spec §4.4, written from the spec's
words: every outbound edge of `ownerKey` at exactly one hop, projecting
the edge's name and the far endpoint's key. Used to compare
`GetContactsHandler` against the spec's intended owner. -/
def listContacts (s : GraphStore) (ownerKey : String) : List GetContactsResult :=
  (s.contacts.filter (fun p => p.2._from == "users/" ++ ownerKey)).filterMap
    (fun p => (s.users.find? (fun q => ("users/" ++ q.1) == p.2._to)).map
      (fun q => { name := p.2.name, user_key := q.1 }))

/-- `GetContactsHandler` (main.go, lines 128–165): parses
`{user_key}` from the request body and runs the AQL traversal
`FOR v, e in 1..1 OUTBOUND @user contacts RETURN {name: e.name, user_key: v._key}`
bound to `"users/" ++ request.UserKey`. `authUserKey` is the
authenticated identity the middleware stored in `Locals("userKey")`; the
handler never reads it. -/
def GetContactsHandler (s : GraphStore) (authUserKey : String)
    (req : GetContactsRequest) : List GetContactsResult :=
  (s.contacts.filter (fun p => p.2._from == "users/" ++ req.user_key)).filterMap
    (fun p => (s.users.find? (fun q => ("users/" ++ q.1) == p.2._to)).map
      (fun q => { name := p.2.name, user_key := q.1 }))

/-- All edges of the `contacts` collection for the ordered pair
(`fromRef`, `toRef`) — the same predicate `AddContactsHandler`'s AQL
lookup filters on. -/
def edgesFor (s : GraphStore) (fromRef toRef : String) : List (String × ContactEdge) :=
  s.contacts.filter (fun p => p.2._from == fromRef && p.2._to == toRef)

/-! ## Auth middleware (companion file, lines 373–402) -/

/-- Outcome of `AuthMiddleware` on a request: 401 for a missing header or
a failed token parse; `next` when the parsed claims' `user_key` is
stored in locals and the handler runs. `panicSliceOutOfRange` marks the
Go runtime panic raised by `authHeader[7:]` when the header is non-empty
but shorter than 7 bytes. -/
inductive AuthOutcome where
  | missingHeader
  | panicSliceOutOfRange
  | invalidToken
  | next (userKey : String)
deriving DecidableEq, Repr

/-- `AuthMiddleware`: empty `Authorization` header → 401; otherwise takes
`authHeader[7:]` (a Go slice that panics when the header is shorter than
7) and hands it to the external JWT parser (`parseJWT` returns the
`user_key` claim of a valid token, `none` otherwise); parse failure →
401; success stores the key and calls the next handler. -/
def AuthMiddleware (parseJWT : String → Option String) (authHeader : String) : AuthOutcome :=
  if authHeader = "" then .missingHeader
  else if authHeader.length < 7 then .panicSliceOutOfRange
  else
    match parseJWT (authHeader.drop 7) with
    | none => .invalidToken
    | some k => .next k

/-! ## Concrete stores and library instances used in witnesses -/

/-- A concrete unexpired verification attempt (created at time 0). -/
def attempt1 : VerificationAttempt := ⟨"+46700000001", "123456", 0⟩

/-- A verification store holding `attempt1` under key `"k1"`, with a
fully functioning `DeleteDocument`. -/
def vstore1 : VStore := ⟨[("k1", attempt1)], []⟩

/-- The same store, but `DeleteDocument` on `"k1"` fails at the store. -/
def vstoreFail : VStore := ⟨[("k1", attempt1)], ["k1"]⟩

/-- A concrete `phonenumbers` instance over `String`: a number parses iff
it starts with `'+'`, is region-valid iff it has 12 characters, and
formats to itself. -/
def phoneLibW : PhoneLib String :=
  ⟨fun n _ => match n.data with | '+' :: _ => some n | _ => none,
   fun n _ => n.data.length == 12,
   fun n => n⟩

/-- The empty graph store. -/
def gstore0 : GraphStore := ⟨[], [], 0, 0⟩

/-- A graph store with two users `a`, `b` and one edge in each direction:
`a` knows `b` as `"x"`, `b` knows `a` as `"y"`. -/
def gstoreAB : GraphStore :=
  ⟨[("a", "+46700000001"), ("b", "+46700000002")],
   [("e0", ⟨"users/a", "users/b", "x"⟩), ("e1", ⟨"users/b", "users/a", "y"⟩)],
   2, 2⟩

/-! ## Helper lemmas -/

lemma find?_key_filter_ne (l : List (String × VerificationAttempt)) (k : String) :
    (l.filter (fun p => p.1 != k)).find? (fun p => p.1 == k) = none := by
  rw [List.find?_eq_none]
  intro x hx
  have h1 := List.of_mem_filter hx
  simp only [bne_iff_ne, ne_eq] at h1
  simpa using h1

lemma deleteAttempt_ok_of (s : VStore) (k : String) (hdel : k ∉ s.failDelete)
    (hsome : (s.docs.find? (fun p => p.1 == k)).isSome) :
    deleteAttempt s k = .ok { s with docs := s.docs.filter (fun p => p.1 != k) } := by
  simp [deleteAttempt, hdel, hsome]

lemma readAttempt_ok_isSome {s : VStore} {k : String} {a : VerificationAttempt}
    (h : readAttempt s k = .ok a) : (s.docs.find? (fun p => p.1 == k)).isSome := by
  unfold readAttempt at h
  cases hfind : s.docs.find? (fun p => p.1 == k) with
  | none => rw [hfind] at h; cases h
  | some p => simp [hfind]

/-! ## Helper lemmas for the contact-graph handlers -/

lemma AddContactsHandler_cons {α : Type} (lib : PhoneLib α) (u : String) (c : Contact)
    (rest : List Contact) (s : GraphStore) :
    AddContactsHandler lib u (c :: rest) s =
      match lib.parse c.number (toUpperStr c.country_code) with
      | none => (.badRequest, s)
      | some n =>
        if lib.isValidNumberForRegion n (toUpperStr c.country_code) then
          AddContactsHandler lib u rest
            (upsertEdge (GetOrCreateUser s (lib.formatE164 n)).2 u
              (GetOrCreateUser s (lib.formatE164 n)).1 c.name)
        else AddContactsHandler lib u rest s := rfl

lemma AddContactsHandler_cons_none {α : Type} {lib : PhoneLib α} {u : String} {c : Contact}
    {rest : List Contact} {s : GraphStore}
    (h : lib.parse c.number (toUpperStr c.country_code) = none) :
    AddContactsHandler lib u (c :: rest) s = (.badRequest, s) := by
  rw [AddContactsHandler_cons, h]

lemma AddContactsHandler_cons_some {α : Type} {lib : PhoneLib α} {u : String} {c : Contact}
    {rest : List Contact} {s : GraphStore} {n : α}
    (h : lib.parse c.number (toUpperStr c.country_code) = some n) :
    AddContactsHandler lib u (c :: rest) s =
      if lib.isValidNumberForRegion n (toUpperStr c.country_code) then
        AddContactsHandler lib u rest
          (upsertEdge (GetOrCreateUser s (lib.formatE164 n)).2 u
            (GetOrCreateUser s (lib.formatE164 n)).1 c.name)
      else AddContactsHandler lib u rest s := by
  rw [AddContactsHandler_cons, h]

lemma GetOrCreateUser_find (s : GraphStore) (N : String) :
    (GetOrCreateUser s N).2.users.find? (fun p => p.2 == N) =
      some ((GetOrCreateUser s N).1, N) := by
  unfold GetOrCreateUser CreateUser
  cases hfind : s.users.find? (fun p => p.2 == N) with
  | some p =>
    have hp : p.2 = N := by simpa using List.find?_some hfind
    simp only [hfind]
    rw [← hp]
  | none => simp [hfind, List.find?_append, List.find?_cons]

lemma GetOrCreateUser_stable (s s' : GraphStore) (N : String)
    (husers : s'.users = (GetOrCreateUser s N).2.users) :
    GetOrCreateUser s' N = ((GetOrCreateUser s N).1, s') := by
  unfold GetOrCreateUser
  rw [husers, GetOrCreateUser_find]
  rfl

lemma GetOrCreateUser_contacts (s : GraphStore) (N : String) :
    (GetOrCreateUser s N).2.contacts = s.contacts := by
  unfold GetOrCreateUser CreateUser
  cases hfind : s.users.find? (fun p => p.2 == N) <;> simp [hfind]

lemma GetOrCreateUser_nextEdgeKey (s : GraphStore) (N : String) :
    (GetOrCreateUser s N).2.nextEdgeKey = s.nextEdgeKey := by
  unfold GetOrCreateUser CreateUser
  cases hfind : s.users.find? (fun p => p.2 == N) <;> simp [hfind]

lemma find?_key_of_mem {β : Type} (l : List (String × β)) (p : String × β)
    (hnd : (l.map Prod.fst).Nodup) (hp : p ∈ l) :
    l.find? (fun q => q.1 == p.1) = some p := by
  induction l with
  | nil => cases hp
  | cons x xs ih =>
    rw [List.map_cons, List.nodup_cons] at hnd
    cases hp with
    | head => simp [List.find?_cons]
    | tail _ hmem =>
      have hne : (x.1 == p.1) = false := by
        simp only [beq_eq_false_iff_ne, ne_eq]
        intro he
        exact hnd.1 (he ▸ List.mem_map_of_mem Prod.fst hmem)
      rw [List.find?_cons, hne]
      exact ih hnd.2 hmem

lemma find?_eq_head?_filter {β : Type} (p : β → Bool) (l : List β) :
    l.find? p = (l.filter p).head? := by
  induction l with
  | nil => rfl
  | cons x xs ih =>
    cases hpx : p x
    · simp only [List.find?_cons, List.filter_cons, hpx, Bool.false_eq_true, if_false, ih]
    · simp only [List.find?_cons, List.filter_cons, hpx, if_true, List.head?_cons]

lemma map_key_id (l : List (String × ContactEdge)) (ek nm : String)
    (h : ek ∉ l.map Prod.fst) :
    l.map (fun q => if q.1 == ek then (q.1, { q.2 with name := nm }) else q) = l := by
  induction l with
  | nil => rfl
  | cons x xs ih =>
    rw [List.map_cons, List.mem_cons, not_or] at h
    have h1 : (x.1 == ek) = false := by
      simp only [beq_eq_false_iff_ne, ne_eq]
      exact fun he => h.1 he.symm
    rw [List.map_cons, h1, ih h.2]
    rfl

lemma map_fst_update (l : List (String × ContactEdge)) (ek nm : String) :
    (l.map (fun q => if q.1 == ek then (q.1, { q.2 with name := nm }) else q)).map Prod.fst =
      l.map Prod.fst := by
  induction l with
  | nil => rfl
  | cons x xs ih =>
    rw [List.map_cons, List.map_cons, List.map_cons]
    by_cases h : (x.1 == ek) = true
    · rw [if_pos h, ih]
    · rw [if_neg h, ih]

lemma filter_pair_update (l : List (String × ContactEdge)) (fr tr ek : String)
    (e : ContactEdge) (nm : String)
    (hnd : (l.map Prod.fst).Nodup)
    (hfilter : l.filter (fun p => p.2._from == fr && p.2._to == tr) = [(ek, e)]) :
    (l.map (fun q => if q.1 == ek then (q.1, { q.2 with name := nm }) else q)).filter
        (fun p => p.2._from == fr && p.2._to == tr) = [(ek, { e with name := nm })] := by
  induction l with
  | nil => simp at hfilter
  | cons x xs ih =>
    rw [List.map_cons, List.nodup_cons] at hnd
    rw [List.filter_cons] at hfilter
    rw [List.map_cons, List.filter_cons]
    by_cases hx : (x.1 == ek) = true
    · have hxe : x.1 = ek := by simpa using hx
      have hnox : ek ∉ xs.map Prod.fst := hxe ▸ hnd.1
      rw [if_pos hx]
      by_cases hP : (x.2._from == fr && x.2._to == tr) = true
      · rw [if_pos hP] at hfilter
        have hcons := List.cons_eq_cons.mp hfilter
        have hxeq : x = (ek, e) := hcons.1
        have hrest : xs.filter (fun p => p.2._from == fr && p.2._to == tr) = [] := hcons.2
        rw [map_key_id xs ek nm hnox]
        rw [if_pos (by simpa using hP), hrest, hxeq]
      · rw [if_neg hP] at hfilter
        exfalso
        have hmem : (ek, e) ∈ xs.filter (fun p => p.2._from == fr && p.2._to == tr) := by
          rw [hfilter]; exact List.mem_singleton.mpr rfl
        exact hnox (List.mem_map_of_mem Prod.fst (List.mem_of_mem_filter hmem))
    · rw [if_neg hx]
      have hx1 : x.1 ≠ ek := by simpa using hx
      by_cases hP : (x.2._from == fr && x.2._to == tr) = true
      · rw [if_pos hP] at hfilter
        exact absurd (congrArg Prod.fst (List.cons_eq_cons.mp hfilter).1) hx1
      · rw [if_neg hP] at hfilter
        rw [if_neg hP]
        exact ih hnd.2 hfilter

lemma upsertEdge_users (t : GraphStore) (u k nm : String) :
    (upsertEdge t u k nm).users = t.users := by
  unfold upsertEdge
  cases h : t.contacts.find? (fun p =>
      p.2._from == "users/" ++ u && p.2._to == "users/" ++ k) with
  | none => rfl
  | some p =>
    dsimp only
    by_cases hn : p.2.name ≠ nm
    · rw [if_pos hn]
    · rw [if_neg hn]

lemma upsertEdge_create (t : GraphStore) (u k nm : String)
    (hE : edgesFor t ("users/" ++ u) ("users/" ++ k) = []) :
    upsertEdge t u k nm =
      { t with
        contacts := t.contacts ++ [(freshEdgeKey t, ⟨"users/" ++ u, "users/" ++ k, nm⟩)],
        nextEdgeKey := t.nextEdgeKey + 1 } := by
  unfold upsertEdge
  have hfind : t.contacts.find? (fun p =>
      p.2._from == "users/" ++ u && p.2._to == "users/" ++ k) = none := by
    rw [find?_eq_head?_filter]
    rw [edgesFor] at hE
    rw [hE]
    rfl
  rw [hfind]

lemma upsertEdge_found (t : GraphStore) (u k nm ek : String) (e : ContactEdge)
    (hE : edgesFor t ("users/" ++ u) ("users/" ++ k) = [(ek, e)]) :
    upsertEdge t u k nm =
      if e.name = nm then t
      else { t with contacts := t.contacts.map (fun q =>
        if q.1 == ek then (q.1, { q.2 with name := nm }) else q) } := by
  unfold upsertEdge
  have hfind : t.contacts.find? (fun p =>
      p.2._from == "users/" ++ u && p.2._to == "users/" ++ k) = some (ek, e) := by
    rw [find?_eq_head?_filter]
    rw [edgesFor] at hE
    rw [hE]
    rfl
  rw [hfind]
  dsimp only
  by_cases hn : e.name = nm
  · rw [if_neg (not_not_intro hn), if_pos hn]
  · rw [if_pos hn, if_neg hn]

lemma edgesFor_endpoints (t : GraphStore) (fr tr ek : String) (e : ContactEdge)
    (hE : edgesFor t fr tr = [(ek, e)]) : e._from = fr ∧ e._to = tr := by
  have hmem : (ek, e) ∈ edgesFor t fr tr := by
    rw [hE]
    exact List.mem_singleton.mpr rfl
  have hP := List.of_mem_filter hmem
  simp only [Bool.and_eq_true, beq_iff_eq] at hP
  exact hP

lemma upsertEdge_pair_edges (t : GraphStore) (u k nm : String)
    (hnd : (t.contacts.map Prod.fst).Nodup)
    (hfresh : freshEdgeKey t ∉ t.contacts.map Prod.fst)
    (hpair : (edgesFor t ("users/" ++ u) ("users/" ++ k)).length ≤ 1) :
    ∃ ek, edgesFor (upsertEdge t u k nm) ("users/" ++ u) ("users/" ++ k) =
        [(ek, ⟨"users/" ++ u, "users/" ++ k, nm⟩)] ∧
      ((upsertEdge t u k nm).contacts.map Prod.fst).Nodup := by
  cases hE : edgesFor t ("users/" ++ u) ("users/" ++ k) with
  | nil =>
    refine ⟨freshEdgeKey t, ?_, ?_⟩
    · rw [upsertEdge_create t u k nm hE]
      rw [edgesFor] at hE ⊢
      simp only [List.filter_append, hE]
      simp
    · rw [upsertEdge_create t u k nm hE]
      simp only [List.map_append, List.map_cons, List.map_nil]
      rw [List.nodup_append]
      exact ⟨hnd, List.nodup_singleton _, by simpa using hfresh⟩
  | cons x xs =>
    cases xs with
    | cons y ys =>
      rw [hE] at hpair
      simp at hpair
    | nil =>
      obtain ⟨ek, e⟩ := x
      have hends := edgesFor_endpoints t ("users/" ++ u) ("users/" ++ k) ek e hE
      rw [upsertEdge_found t u k nm ek e hE]
      by_cases hn : e.name = nm
      · rw [if_pos hn]
        refine ⟨ek, ?_, hnd⟩
        rw [hE]
        have he : e = ⟨"users/" ++ u, "users/" ++ k, nm⟩ := by
          cases e
          simp only [ContactEdge.mk.injEq]
          exact ⟨hends.1, hends.2, hn⟩
        rw [he]
      · rw [if_neg hn]
        refine ⟨ek, ?_, ?_⟩
        · rw [edgesFor] at hE ⊢
          simp only
          rw [filter_pair_update t.contacts ("users/" ++ u) ("users/" ++ k) ek e nm hnd hE]
          have he : ({ e with name := nm } : ContactEdge) =
              ⟨"users/" ++ u, "users/" ++ k, nm⟩ := by
            cases e
            simp only [ContactEdge.mk.injEq]
            exact ⟨hends.1, hends.2, trivial⟩
          rw [he]
        · simp only
          rw [map_fst_update]
          exact hnd

lemma upsertEdge_pair_edges_found (t : GraphStore) (u k nm ek : String) (e : ContactEdge)
    (hnd : (t.contacts.map Prod.fst).Nodup)
    (hE : edgesFor t ("users/" ++ u) ("users/" ++ k) = [(ek, e)]) :
    edgesFor (upsertEdge t u k nm) ("users/" ++ u) ("users/" ++ k) =
        [(ek, ⟨"users/" ++ u, "users/" ++ k, nm⟩)] ∧
      ((upsertEdge t u k nm).contacts.map Prod.fst).Nodup := by
  have hends := edgesFor_endpoints t ("users/" ++ u) ("users/" ++ k) ek e hE
  rw [upsertEdge_found t u k nm ek e hE]
  by_cases hn : e.name = nm
  · rw [if_pos hn]
    refine ⟨?_, hnd⟩
    rw [hE]
    have he : e = ⟨"users/" ++ u, "users/" ++ k, nm⟩ := by
      cases e
      simp only [ContactEdge.mk.injEq]
      exact ⟨hends.1, hends.2, hn⟩
    rw [he]
  · rw [if_neg hn]
    refine ⟨?_, ?_⟩
    · rw [edgesFor] at hE ⊢
      simp only
      rw [filter_pair_update t.contacts ("users/" ++ u) ("users/" ++ k) ek e nm hnd hE]
      have he : ({ e with name := nm } : ContactEdge) =
          ⟨"users/" ++ u, "users/" ++ k, nm⟩ := by
        cases e
        simp only [ContactEdge.mk.injEq]
        exact ⟨hends.1, hends.2, trivial⟩
      rw [he]
    · simp only
      rw [map_fst_update]
      exact hnd

lemma upsertEdge_noop (t : GraphStore) (u k nm ek : String)
    (hE : edgesFor t ("users/" ++ u) ("users/" ++ k) =
      [(ek, ⟨"users/" ++ u, "users/" ++ k, nm⟩)]) :
    upsertEdge t u k nm = t := by
  rw [upsertEdge_found t u k nm ek _ hE]
  rw [if_pos rfl]

lemma addContacts_single {α : Type} (lib : PhoneLib α) (u cc num nm : String)
    (s : GraphStore) (n : α)
    (hp : lib.parse num (toUpperStr cc) = some n)
    (hv : lib.isValidNumberForRegion n (toUpperStr cc) = true) :
    AddContactsHandler lib u [⟨cc, num, nm⟩] s =
      (.ok, upsertEdge (GetOrCreateUser s (lib.formatE164 n)).2 u
        (GetOrCreateUser s (lib.formatE164 n)).1 nm) := by
  rw [AddContactsHandler_cons_some hp, if_pos hv]
  rfl

lemma edgesFor_congr (s t : GraphStore) (fr tr : String)
    (h : s.contacts = t.contacts) : edgesFor s fr tr = edgesFor t fr tr := by
  rw [edgesFor, edgesFor, h]

/-! ## The claims -/

/-- C1, counterexample. In `gstoreAB` the request is authenticated as user
`a` but carries `user_key = "b"` in the body: the handler returns `b`'s
outbound edge list, which differs from `a`'s one-hop contact list — the
owner whose outbound edges are listed is the body's identity, not the
authenticated one. -/
theorem c1_counterexample :
    GetContactsHandler gstoreAB "a" ⟨"b"⟩ = [⟨"y", "a"⟩] ∧
    listContacts gstoreAB "a" = [⟨"x", "b"⟩] ∧
    GetContactsHandler gstoreAB "a" ⟨"b"⟩ ≠ listContacts gstoreAB "a" :=
  ⟨rfl, rfl, by decide⟩

/-- C1, amended. For every authenticated GET /api/contacts request, the
returned one-hop contact list is computed for the `user_key` carried in
the request body: the result is independent of the authenticated
identity in `Locals("userKey")`, and equals the GraphReader listing of
the body's key. -/
theorem c1_amended_reads_body_key (s : GraphStore) (a₁ a₂ : String) (req : GetContactsRequest) :
    GetContactsHandler s a₁ req = GetContactsHandler s a₂ req ∧
    GetContactsHandler s a₁ req = listContacts s req.user_key :=
  ⟨rfl, rfl⟩

/-- C2. Verification is single-use on success: whenever `verify` returns
`accepted=true` (the store functioning, i.e. not failing the deletion),
the attempt is deleted from the store, and a second `verify` with the
same key and code signals `notFound` — the missing-attempt case of
`verify` is reported as a not-found error. -/
theorem c2_verify_single_use (now now₂ : Nat) (s s' : VStore) (k c : String)
    (hdel : k ∉ s.failDelete)
    (h : verify now s k c = .ok (true, s')) :
    readAttempt s' k = .error .notFound ∧ verify now₂ s' k c = .error .notFound := by
  unfold verify at h
  cases hread : readAttempt s k with
  | error e => rw [hread] at h; cases h
  | ok a =>
    rw [hread] at h
    injection h with hv
    have hsome := readAttempt_ok_isSome hread
    unfold VerifyCode at hv
    rw [deleteAttempt_ok_of s k hdel hsome] at hv
    by_cases hexp : a.createdAt + VerificationExpiryTime < now
    · rw [if_pos hexp] at hv
      simp at hv
    · rw [if_neg hexp] at hv
      by_cases hcode : a.code = c
      · rw [if_pos hcode] at hv
        simp only [Prod.mk.injEq] at hv
        have hs' := hv.2.symm
        subst hs'
        have hfind := find?_key_filter_ne s.docs k
        constructor
        · simp [readAttempt, hfind]
        · simp [verify, readAttempt, hfind]
      · rw [if_neg hcode] at hv
        simp at hv

/-- Witness for C2 at the concrete store `vstore1`. -/
theorem c2_witness :
    readAttempt (⟨[], []⟩ : VStore) "k1" = .error .notFound ∧
      verify 200 (⟨[], []⟩ : VStore) "k1" "123456" = .error .notFound :=
  c2_verify_single_use 100 200 vstore1 ⟨[], []⟩ "k1" "123456" (by decide) rfl

/-- C3. Expiry consumes the attempt: for a stored attempt, a `verify`
call strictly after `createdAt + 5min` (any supplied code) returns
`accepted=false` and deletes the attempt, while a `verify` at or before
`createdAt + 5min` with the stored code returns `accepted=true`. -/
theorem c3_expiry_consumes (s : VStore) (k : String) (a : VerificationAttempt) (c : String)
    (hread : readAttempt s k = .ok a) (hdel : k ∉ s.failDelete) :
    (∀ now, a.createdAt + VerificationExpiryTime < now →
      ∃ s', verify now s k c = .ok (false, s') ∧ readAttempt s' k = .error .notFound) ∧
    (∀ now, now ≤ a.createdAt + VerificationExpiryTime →
      ∃ s', verify now s k a.code = .ok (true, s')) := by
  have hsome := readAttempt_ok_isSome hread
  have hdelete := deleteAttempt_ok_of s k hdel hsome
  have hfind := find?_key_filter_ne s.docs k
  constructor
  · intro now hexp
    refine ⟨⟨s.docs.filter (fun p => p.1 != k), s.failDelete⟩, ?_, ?_⟩
    · simp [verify, hread, VerifyCode, hexp, hdelete]
    · simp [readAttempt, hfind]
  · intro now hle
    refine ⟨⟨s.docs.filter (fun p => p.1 != k), s.failDelete⟩, ?_⟩
    simp [verify, hread, VerifyCode, Nat.not_lt.mpr hle, hdelete]

/-- Witness for C3: `attempt1` (created at 0) verified at 301s fails and
is gone; verified at 299s with the right code succeeds. -/
theorem c3_witness :
    (∃ s', verify 301 vstore1 "k1" "000000" = .ok (false, s') ∧
      readAttempt s' "k1" = .error .notFound) ∧
    (∃ s', verify 299 vstore1 "k1" attempt1.code = .ok (true, s')) :=
  ⟨(c3_expiry_consumes vstore1 "k1" attempt1 "000000" rfl (by decide)).1 301 (by decide),
   (c3_expiry_consumes vstore1 "k1" attempt1 "000000" rfl (by decide)).2 299 (by decide)⟩

/-- C4. Code mismatch does not consume: an unexpired attempt verified
with a code different from the stored one returns `accepted=false` with
the store left exactly unchanged, and a later `verify` with the correct
code before expiry still returns `accepted=true`. -/
theorem c4_mismatch_not_consumed (now : Nat) (s : VStore) (k : String)
    (a : VerificationAttempt) (c : String)
    (hread : readAttempt s k = .ok a)
    (hunexp : now ≤ a.createdAt + VerificationExpiryTime)
    (hne : a.code ≠ c) :
    verify now s k c = .ok (false, s) ∧
    (∀ now₂, now₂ ≤ a.createdAt + VerificationExpiryTime →
      ∃ s', verify now₂ s k a.code = .ok (true, s')) := by
  constructor
  · simp [verify, hread, VerifyCode, Nat.not_lt.mpr hunexp, hne]
  · intro now₂ hle
    exact ⟨(VerifyCode now₂ s k a a.code).2,
      by simp [verify, hread, VerifyCode, Nat.not_lt.mpr hle]⟩

/-- Witness for C4 at `vstore1` with wrong code `"999999"`. -/
theorem c4_witness :
    verify 100 vstore1 "k1" "999999" = .ok (false, vstore1) ∧
    (∃ s', verify 250 vstore1 "k1" attempt1.code = .ok (true, s')) :=
  ⟨(c4_mismatch_not_consumed 100 vstore1 "k1" attempt1 "999999" rfl (by decide) (by decide)).1,
   (c4_mismatch_not_consumed 100 vstore1 "k1" attempt1 "999999" rfl (by decide) (by decide)).2
     250 (by decide)⟩

/-- C5, counterexample. In `vstoreFail` the store fails the deletion of
`"k1"`, yet `verify` still returns `accepted=true` with the attempt left
in place, and `VerifyRequestHandler` proceeds to report success: this
store failure does not abort the request and is silently ignored. -/
theorem c5_counterexample :
    deleteAttempt vstoreFail "k1" = .error .storeFailure ∧
    readAttempt vstoreFail "k1" = .ok attempt1 ∧
    verify 100 vstoreFail "k1" "123456" = .ok (true, vstoreFail) ∧
    VerifyRequestHandler 100 vstoreFail "k1" "123456" = (.success, vstoreFail) :=
  ⟨rfl, rfl, rfl, rfl⟩

/-- C5, amended. Store failures whose errors the code inspects (the
attempt read) abort the request as a 500; but `VerifyCode` discards the
error of the `DeleteDocument` that consumes the attempt, so when that
deletion fails at the store, `verify` still returns `accepted=true`, the
attempt remains stored, and the request proceeds to report success. -/
theorem c5_delete_failure_ignored (now : Nat) (s : VStore) (k : String)
    (a : VerificationAttempt) (c : String)
    (hread : readAttempt s k = .ok a) (hcode : a.code = c)
    (hunexp : now ≤ a.createdAt + VerificationExpiryTime)
    (hfail : k ∈ s.failDelete) :
    (verify now s k c = .ok (true, s) ∧ VerifyRequestHandler now s k c = (.success, s)) ∧
    (∀ (s₂ : VStore) (k₂ c₂ : String) (now₃ : Nat) (e : DbErr),
      readAttempt s₂ k₂ = .error e →
        VerifyRequestHandler now₃ s₂ k₂ c₂ = (.serverError, s₂)) := by
  have hdel : deleteAttempt s k = .error .storeFailure := by simp [deleteAttempt, hfail]
  refine ⟨⟨?_, ?_⟩, ?_⟩
  · simp [verify, hread, VerifyCode, Nat.not_lt.mpr hunexp, hcode, hdel]
  · simp [VerifyRequestHandler, hread, VerifyCode, Nat.not_lt.mpr hunexp, hcode, hdel]
  · intro s₂ k₂ c₂ now₃ e h
    simp [VerifyRequestHandler, h]

/-- Witness for C5's amended theorem at `vstoreFail`. -/
theorem c5_witness :
    (verify 100 vstoreFail "k1" "123456" = .ok (true, vstoreFail) ∧
      VerifyRequestHandler 100 vstoreFail "k1" "123456" = (.success, vstoreFail)) ∧
    VerifyRequestHandler 50 (⟨[], []⟩ : VStore) "kx" "000000" =
      (.serverError, ⟨[], []⟩) :=
  ⟨(c5_delete_failure_ignored 100 vstoreFail "k1" attempt1 "123456" rfl rfl
      (by decide) (by decide)).1,
   (c5_delete_failure_ignored 100 vstoreFail "k1" attempt1 "123456" rfl rfl
      (by decide) (by decide)).2 ⟨[], []⟩ "kx" "000000" 50 .notFound rfl⟩

/-- C6. A batch whose first canonicalization failure is at item `bad`
(after a prefix `pre` of parseable items) fails as a whole with the 400
validation response, and the final store is exactly the store after
processing `pre` alone — earlier items' effects are kept (no rollback),
and nothing from `bad` onward is applied. -/
theorem c6_unparseable_aborts_batch {α : Type} (lib : PhoneLib α) (u : String)
    (pre post : List Contact) (bad : Contact) (s : GraphStore)
    (hpre : ∀ c ∈ pre, (lib.parse c.number (toUpperStr c.country_code)).isSome)
    (hbad : lib.parse bad.number (toUpperStr bad.country_code) = none) :
    (AddContactsHandler lib u pre s).1 = .ok ∧
    AddContactsHandler lib u (pre ++ bad :: post) s =
      (.badRequest, (AddContactsHandler lib u pre s).2) := by
  induction pre generalizing s with
  | nil =>
    refine ⟨rfl, ?_⟩
    rw [List.nil_append, AddContactsHandler_cons_none hbad]
    rfl
  | cons c rest ih =>
    have hc := hpre c (List.mem_cons_self c rest)
    have hrest := fun x hx => hpre x (List.mem_cons_of_mem c hx)
    cases hp : lib.parse c.number (toUpperStr c.country_code) with
    | none => rw [hp] at hc; simp at hc
    | some n =>
      rw [List.cons_append, AddContactsHandler_cons_some hp, AddContactsHandler_cons_some hp]
      by_cases hval : lib.isValidNumberForRegion n (toUpperStr c.country_code)
      · rw [if_pos hval, if_pos hval]
        exact ih _ hrest
      · rw [if_neg hval, if_neg hval]
        exact ih _ hrest

/-- Witness for C6: `"hello"` fails to parse; Alice's edge survives,
Carol's item is never processed. -/
theorem c6_witness :
    (AddContactsHandler phoneLibW "a" [⟨"se", "+46700000001", "Alice"⟩] gstore0).1 = .ok ∧
    AddContactsHandler phoneLibW "a"
        ([⟨"se", "+46700000001", "Alice"⟩] ++ ⟨"se", "hello", "Bob"⟩ ::
          [⟨"se", "+46700000002", "Carol"⟩]) gstore0 =
      (.badRequest,
        (AddContactsHandler phoneLibW "a" [⟨"se", "+46700000001", "Alice"⟩] gstore0).2) :=
  c6_unparseable_aborts_batch phoneLibW "a" [⟨"se", "+46700000001", "Alice"⟩]
    [⟨"se", "+46700000002", "Carol"⟩] ⟨"se", "hello", "Bob"⟩ gstore0 (by decide) (by decide)

/-- C7. An item that parses but is not valid for its stated region is
silently skipped: the batch behaves exactly as if the item were absent
(no identity resolved, no edge touched, siblings processed, overall
result unchanged). -/
theorem c7_region_invalid_skipped {α : Type} (lib : PhoneLib α) (u : String)
    (pre post : List Contact) (c : Contact) (s : GraphStore) (n : α)
    (hp : lib.parse c.number (toUpperStr c.country_code) = some n)
    (hinv : lib.isValidNumberForRegion n (toUpperStr c.country_code) = false) :
    AddContactsHandler lib u (pre ++ c :: post) s = AddContactsHandler lib u (pre ++ post) s := by
  induction pre generalizing s with
  | nil =>
    rw [List.nil_append, List.nil_append, AddContactsHandler_cons_some hp, if_neg]
    simp [hinv]
  | cons d rest ih =>
    cases hd : lib.parse d.number (toUpperStr d.country_code) with
    | none =>
      rw [List.cons_append, List.cons_append, AddContactsHandler_cons_none hd,
        AddContactsHandler_cons_none hd]
    | some m =>
      rw [List.cons_append, List.cons_append, AddContactsHandler_cons_some hd,
        AddContactsHandler_cons_some hd]
      by_cases hv : lib.isValidNumberForRegion m (toUpperStr d.country_code)
      · rw [if_pos hv, if_pos hv]; exact ih _
      · rw [if_neg hv, if_neg hv]; exact ih _

/-- Witness for C7: `"+1555"` parses but is region-invalid and is
dropped from the batch without effect. -/
theorem c7_witness :
    AddContactsHandler phoneLibW "a"
        ([⟨"se", "+46700000001", "Alice"⟩] ++ ⟨"us", "+1555", "Dave"⟩ :: []) gstore0 =
      AddContactsHandler phoneLibW "a" ([⟨"se", "+46700000001", "Alice"⟩] ++ []) gstore0 :=
  c7_region_invalid_skipped phoneLibW "a" [⟨"se", "+46700000001", "Alice"⟩] []
    ⟨"us", "+1555", "Dave"⟩ gstore0 "+1555" (by decide) (by decide)

/-- C8. Edge dedup and update: starting from a store holding at most one
edge for the ordered (owner, contact) pair, submitting the contact with
name `a` and then with name `b` leaves exactly one edge for the pair,
whose name is `b`; a further resubmission with the unchanged name `b` is
a no-op on the store. -/
theorem c8_edge_dedup_update {α : Type} (lib : PhoneLib α) (u cc num a b : String)
    (s : GraphStore) (n : α)
    (hp : lib.parse num (toUpperStr cc) = some n)
    (hv : lib.isValidNumberForRegion n (toUpperStr cc) = true)
    (hnd : (s.contacts.map Prod.fst).Nodup)
    (hfresh : freshEdgeKey s ∉ s.contacts.map Prod.fst)
    (hpair : (edgesFor s ("users/" ++ u)
        ("users/" ++ (GetOrCreateUser s (lib.formatE164 n)).1)).length ≤ 1) :
    ∃ ek,
      edgesFor
          (AddContactsHandler lib u [⟨cc, num, b⟩]
            (AddContactsHandler lib u [⟨cc, num, a⟩] s).2).2
          ("users/" ++ u) ("users/" ++ (GetOrCreateUser s (lib.formatE164 n)).1) =
        [(ek, ⟨"users/" ++ u,
          "users/" ++ (GetOrCreateUser s (lib.formatE164 n)).1, b⟩)] ∧
      AddContactsHandler lib u [⟨cc, num, b⟩]
          (AddContactsHandler lib u [⟨cc, num, b⟩]
            (AddContactsHandler lib u [⟨cc, num, a⟩] s).2).2 =
        (.ok, (AddContactsHandler lib u [⟨cc, num, b⟩]
          (AddContactsHandler lib u [⟨cc, num, a⟩] s).2).2) := by
  set N := lib.formatE164 n with hN
  set k := (GetOrCreateUser s N).1 with hk
  set s₁ := (GetOrCreateUser s N).2 with hs₁
  have hc₁ : s₁.contacts = s.contacts := GetOrCreateUser_contacts s N
  have he₁ : s₁.nextEdgeKey = s.nextEdgeKey := GetOrCreateUser_nextEdgeKey s N
  have hnd₁ : (s₁.contacts.map Prod.fst).Nodup := by rw [hc₁]; exact hnd
  have hfr₁ : freshEdgeKey s₁ ∉ s₁.contacts.map Prod.fst := by
    rw [hc₁]
    show "e" ++ toString s₁.nextEdgeKey ∉ s.contacts.map Prod.fst
    rw [he₁]
    exact hfresh
  have hpair₁ : (edgesFor s₁ ("users/" ++ u) ("users/" ++ k)).length ≤ 1 := by
    rw [edgesFor_congr s₁ s _ _ hc₁]
    exact hpair
  have h1 : AddContactsHandler lib u [⟨cc, num, a⟩] s = (.ok, upsertEdge s₁ u k a) :=
    addContacts_single lib u cc num a s n hp hv
  obtain ⟨ekA, hEA, hndA⟩ := upsertEdge_pair_edges s₁ u k a hnd₁ hfr₁ hpair₁
  have husA : (upsertEdge s₁ u k a).users = s₁.users := upsertEdge_users s₁ u k a
  have hstA : GetOrCreateUser (upsertEdge s₁ u k a) N = (k, upsertEdge s₁ u k a) :=
    GetOrCreateUser_stable s (upsertEdge s₁ u k a) N (by rw [husA, ← hs₁])
  have h2 : AddContactsHandler lib u [⟨cc, num, b⟩] (upsertEdge s₁ u k a) =
      (.ok, upsertEdge (upsertEdge s₁ u k a) u k b) := by
    have := addContacts_single lib u cc num b (upsertEdge s₁ u k a) n hp hv
    rw [hstA] at this
    exact this
  obtain ⟨hEB, hndB⟩ := upsertEdge_pair_edges_found (upsertEdge s₁ u k a) u k b ekA
    ⟨"users/" ++ u, "users/" ++ k, a⟩ hndA hEA
  refine ⟨ekA, ?_, ?_⟩
  · simp only [h1, h2]
    exact hEB
  · have husB : (upsertEdge (upsertEdge s₁ u k a) u k b).users =
        (upsertEdge s₁ u k a).users := upsertEdge_users _ u k b
    have hstB : GetOrCreateUser (upsertEdge (upsertEdge s₁ u k a) u k b) N =
        (k, upsertEdge (upsertEdge s₁ u k a) u k b) :=
      GetOrCreateUser_stable s _ N (by rw [husB, husA, ← hs₁])
    have h3 : AddContactsHandler lib u [⟨cc, num, b⟩]
        (upsertEdge (upsertEdge s₁ u k a) u k b) =
        (.ok, upsertEdge (upsertEdge (upsertEdge s₁ u k a) u k b) u k b) := by
      have := addContacts_single lib u cc num b
        (upsertEdge (upsertEdge s₁ u k a) u k b) n hp hv
      rw [hstB] at this
      exact this
    rw [upsertEdge_noop (upsertEdge (upsertEdge s₁ u k a) u k b) u k b ekA hEB] at h3
    simp only [h1, h2]
    exact h3

/-- Witness for C8: Alice then Bob from owner `a` on the empty store. -/
theorem c8_witness :
    ∃ ek,
      edgesFor
          (AddContactsHandler phoneLibW "a" [⟨"se", "+46700000001", "Bob"⟩]
            (AddContactsHandler phoneLibW "a" [⟨"se", "+46700000001", "Alice"⟩] gstore0).2).2
          ("users/" ++ "a")
          ("users/" ++ (GetOrCreateUser gstore0 (phoneLibW.formatE164 "+46700000001")).1) =
        [(ek, ⟨"users/" ++ "a",
          "users/" ++ (GetOrCreateUser gstore0 (phoneLibW.formatE164 "+46700000001")).1,
          "Bob"⟩)] ∧
      AddContactsHandler phoneLibW "a" [⟨"se", "+46700000001", "Bob"⟩]
          (AddContactsHandler phoneLibW "a" [⟨"se", "+46700000001", "Bob"⟩]
            (AddContactsHandler phoneLibW "a" [⟨"se", "+46700000001", "Alice"⟩] gstore0).2).2 =
        (.ok, (AddContactsHandler phoneLibW "a" [⟨"se", "+46700000001", "Bob"⟩]
          (AddContactsHandler phoneLibW "a" [⟨"se", "+46700000001", "Alice"⟩] gstore0).2).2) :=
  c8_edge_dedup_update phoneLibW "a" "se" "+46700000001" "Alice" "Bob" gstore0 "+46700000001"
    (by decide) (by decide) (by decide) (by decide) (by decide)

/-- C9. Identity resolution is idempotent under sequential calls: a
second `GetOrCreateUser` with the same canonical number returns the same
key and leaves the store unchanged, and the returned key dereferences to
a user whose number equals the input. -/
theorem c9_resolve_idempotent (s : GraphStore) (N : String)
    (hnd : (s.users.map Prod.fst).Nodup)
    (hfresh : freshUserKey s ∉ s.users.map Prod.fst) :
    GetOrCreateUser (GetOrCreateUser s N).2 N =
      ((GetOrCreateUser s N).1, (GetOrCreateUser s N).2) ∧
    readUserNumber (GetOrCreateUser s N).2 (GetOrCreateUser s N).1 = some N := by
  refine ⟨GetOrCreateUser_stable s _ N rfl, ?_⟩
  unfold readUserNumber
  cases hfind : s.users.find? (fun p => p.2 == N) with
  | some p =>
    have hp : p.2 = N := by simpa using List.find?_some hfind
    have hmem := List.mem_of_find?_eq_some hfind
    have h1 : GetOrCreateUser s N = (p.1, s) := by unfold GetOrCreateUser; rw [hfind]
    rw [h1]
    rw [find?_key_of_mem s.users p hnd hmem]
    simp [hp]
  | none =>
    have h1 : GetOrCreateUser s N = (freshUserKey s,
        { s with users := s.users ++ [(freshUserKey s, N)],
                 nextUserKey := s.nextUserKey + 1 }) := by
      unfold GetOrCreateUser CreateUser; rw [hfind]
    rw [h1]
    have h2 : s.users.find? (fun q => q.1 == freshUserKey s) = none := by
      rw [List.find?_eq_none]
      intro x hx
      simp only [beq_iff_eq]
      intro he
      exact hfresh (he ▸ List.mem_map_of_mem Prod.fst hx)
    simp [List.find?_append, h2, List.find?_cons]

/-- Witness for C9 on the empty graph store. -/
theorem c9_witness :
    GetOrCreateUser (GetOrCreateUser gstore0 "+46700000001").2 "+46700000001" =
      ((GetOrCreateUser gstore0 "+46700000001").1, (GetOrCreateUser gstore0 "+46700000001").2) ∧
    readUserNumber (GetOrCreateUser gstore0 "+46700000001").2
      (GetOrCreateUser gstore0 "+46700000001").1 = some "+46700000001" :=
  c9_resolve_idempotent gstore0 "+46700000001" (by decide) (by decide)

/-- C10, behaviour at the failing input. An empty `Authorization` header
is rejected with 401, and a malformed token of at least 7 bytes is
rejected with 401; but a non-empty header shorter than 7 bytes (here
`"abc"`) hits the unchecked Go slice `authHeader[7:]` and panics with an
out-of-range access instead of returning 401. -/
theorem c10_short_header_panics :
    AuthMiddleware (fun _ => none) "" = .missingHeader ∧
    AuthMiddleware (fun _ => none) "abc" = .panicSliceOutOfRange ∧
    AuthMiddleware (fun _ => none) "Bearer xyz" = .invalidToken :=
  ⟨rfl, rfl, rfl⟩
